import Mathlib

/-!
Verification of the virtual-piano application (`app.py`).

The Python/JavaScript source is shallowly embedded below:

* the keyboard-layout function `get_key_info` (pure Python) becomes a
  structurally recursive Lean function over a `Key` record; pixel
  coordinates, computed by Python with exact small decimals, are modelled
  over `ℚ`;
* the frequency formula `get_frequency` becomes a real-valued function;
* the JavaScript voice engine (`playNote` / `stopNote`) and the document
  keyboard handlers become a transition system over `PianoState`, where the
  JS `Map` of active oscillators is an insertion-ordered association list
  and scheduled release envelopes are recorded in a log.
-/

/-! ## Configuration constants (from the source header) -/

def KEY_WIDTH_PX : ℚ := 40

def KEY_HEIGHT_PX : ℚ := 150

/-- `BLACK_KEY_WIDTH_RATIO = 0.6` in the source. -/
def blackKeyWidthFactor : ℚ := 0.6

/-- `BLACK_KEY_HEIGHT_RATIO = 0.6` in the source. -/
def blackKeyHeightFactor : ℚ := 0.6

/-- `offset_factor = 0.6`, the literal inside the black-key branch. -/
def offset_factor : ℚ := 0.6

/-- `KEY_MAP`: mapping of keyboard characters to note offsets, in the
source's insertion order.  `'\x27'` is the apostrophe key. -/
def KEY_MAP : List (Char × Nat) :=
  [('a', 0), ('w', 1), ('s', 2), ('e', 3), ('d', 4), ('f', 5), ('t', 6),
   ('g', 7), ('y', 8), ('h', 9), ('u', 10), ('j', 11), ('k', 12), ('o', 13),
   ('l', 14), ('p', 15), (';', 16), ('\x27', 17), ('z', 18), ('x', 19),
   ('c', 20), ('v', 21), ('b', 22), ('n', 23), ('m', 24)]

/-- The identifiers of `KEY_MAP` in order of their offsets 0..24. -/
def KEY_LIST : List Char :=
  ['a', 'w', 's', 'e', 'd', 'f', 't', 'g', 'y', 'h', 'u', 'j', 'k', 'o',
   'l', 'p', ';', '\x27', 'z', 'x', 'c', 'v', 'b', 'n', 'm']

/-- The 12-entry `key_types` table from `get_key_info`: (css kind, is-white). -/
def key_types : List (String × Bool) :=
  [("white", true),
   ("black", false),
   ("white", true),
   ("black", false),
   ("white", true),
   ("white", true),
   ("black", false),
   ("white", true),
   ("black", false),
   ("white", true),
   ("black", false),
   ("white", true)]

/-! ## Frequency model -/

/-- `get_frequency(midi_note_number)`:
`440 * (2 ** ((midi_note_number - 69) / 12))`, idealized over ℝ. -/
noncomputable def get_frequency (midi_note_number : Int) : ℝ :=
  440 * (2 : ℝ) ^ (((midi_note_number : ℝ) - 69) / 12)

/-! ## Keyboard layout engine -/

/-- `note_in_octave_idx = (current_midi_note - 21) % 12`; Python `%` with a
positive modulus is `Int.emod`, whose result is non-negative, so the value
is returned as a `Nat` index. -/
def note_idx (note : Int) : Nat := ((note - 21) % 12).toNat

/-- `key_types[note_in_octave_idx]` (the index is in bounds, see `C8`). -/
def key_type_of (note : Int) : String × Bool :=
  key_types.getD (note_idx note) ("white", true)

/-- `key_type_info[1]`: whether the key is white. -/
def is_white_note (note : Int) : Bool := (key_type_of note).2

/-- The linear scan `for k, v in KEY_MAP.items(): if v == i: ...` returning
the first character bound to offset `i`, or `none`. -/
def keyboard_key_for (i : Nat) : Option Char :=
  (KEY_MAP.find? (fun p => p.2 == i)).map Prod.fst

/-- One key dictionary produced by `get_key_info` (the `frequency` entry is
always `get_frequency midi_note` and is kept as the separate real-valued
function above so the layout stays computable). -/
structure Key where
  midi_note : Int
  type : String
  x : ℚ
  y : ℚ
  width : ℚ
  height : ℚ
  color : String
  z_index : Nat
  label : String
  keyboard_key : Option Char
deriving DecidableEq, Inhabited

/-- The body of the `for i in range(num_keys)` loop of `get_key_info`, for
loop index `i` with current white-key count `wc`. -/
def mkKey (start : Int) (wc i : Nat) : Key :=
  if (key_type_of (start + (i : Int))).2 then
    { midi_note := start + (i : Int)
      type := (key_type_of (start + (i : Int))).1
      x := (wc : ℚ) * KEY_WIDTH_PX
      y := 0
      width := KEY_WIDTH_PX
      height := KEY_HEIGHT_PX
      color := "#FFFFFF"
      z_index := 1
      label :=
        if note_idx (start + (i : Int)) = 0 then
          "C" ++ toString ((start + (i : Int)).fdiv 12 - 1)
        else ""
      keyboard_key := keyboard_key_for i }
  else
    { midi_note := start + (i : Int)
      type := (key_type_of (start + (i : Int))).1
      x := ((wc : ℚ) - 1) * KEY_WIDTH_PX + KEY_WIDTH_PX * offset_factor
             - (KEY_WIDTH_PX * blackKeyWidthFactor) / 2
      y := 0
      width := KEY_WIDTH_PX * blackKeyWidthFactor
      height := KEY_HEIGHT_PX * blackKeyHeightFactor
      color := "#333333"
      z_index := 2
      label := ""
      keyboard_key := keyboard_key_for i }

/-- The loop of `get_key_info`: remaining iterations drive the recursion,
`i` is the loop index and `wc` the running `white_key_count`. -/
def get_key_info_go (start : Int) : Nat → Nat → Nat → List Key
  | _, _, 0 => []
  | i, wc, n + 1 =>
      mkKey start wc i ::
        get_key_info_go start (i + 1)
          (wc + (if is_white_note (start + (i : Int)) then 1 else 0)) n

/-- `get_key_info(start_midi_note, num_keys)`.  `num_keys` is an arbitrary
integer; Python's `range(num_keys)` is empty for `num_keys < 1`, which
`Int.toNat` reproduces. -/
def get_key_info (start_midi_note num_keys : Int) : List Key :=
  get_key_info_go start_midi_note 0 0 num_keys.toNat

/-- Number of white keys produced by loop indices `i0, i0+1, ..., i0+j-1`. -/
def whitesFrom (start : Int) (i0 : Nat) : Nat → Nat
  | 0 => 0
  | j + 1 =>
      (if is_white_note (start + (i0 : Int)) then 1 else 0)
        + whitesFrom start (i0 + 1) j

/-! ## Voice engine and input dispatcher (the JavaScript part) -/

/-- Runtime state of the script: `activeOscillators` is the JS `Map` from
key element (identified by a natural number) to its voice, kept in insertion
order; `nextVoice` is a fresh-allocation counter for created voices;
`releaseLog` records each release envelope actually scheduled (key element
and voice), in order; `activeClasses` is the set of key elements carrying
the `active` CSS class, in insertion order. -/
structure PianoState where
  activeOscillators : List (Nat × Nat)
  nextVoice : Nat
  sustainEnabled : Bool
  activeClasses : List Nat
  releaseLog : List (Nat × Nat)
deriving DecidableEq, Inhabited

/-- `activeOscillators.get(k)` / `activeOscillators.has(k)`. -/
def lookupVoice (m : List (Nat × Nat)) (k : Nat) : Option Nat :=
  (m.find? (fun p => p.1 == k)).map Prod.snd

/-- `playNote(keyElement)`: no-op when a voice already exists, otherwise
allocate a voice, start it and store it in the map. -/
def playNote (s : PianoState) (k : Nat) : PianoState :=
  if (lookupVoice s.activeOscillators k).isSome then s
  else
    { s with
        activeOscillators := s.activeOscillators ++ [(k, s.nextVoice)]
        nextVoice := s.nextVoice + 1 }

/-- `stopNote(keyElement)`: no-op when no voice exists; otherwise, only when
sustain is disabled, schedule the release ramp (logged) and delete the map
entry. -/
def stopNote (s : PianoState) (k : Nat) : PianoState :=
  match lookupVoice s.activeOscillators k with
  | none => s
  | some v =>
      if s.sustainEnabled then s
      else
        { s with
            activeOscillators := s.activeOscillators.filter (fun p => p.1 != k)
            releaseLog := s.releaseLog ++ [(k, v)] }

/-- The `activeOscillators.forEach` body of the space-keyup handler: stop
each listed key and remove its `active` class. -/
def flushAll (s : PianoState) : List (Nat × Nat) → PianoState
  | [] => s
  | (k, _) :: rest =>
      let s1 := stopNote s k
      flushAll { s1 with activeClasses := s1.activeClasses.filter (fun c => c != k) } rest

/-- Keyboard events reaching the document handlers, with the `keyMap`
lookup already resolved: `keydown k` / `keyup k` carry the bound key
element. -/
inductive InputEvent where
  | keydownSpace
  | keydown (k : Nat)
  | keyupSpace
  | keyup (k : Nat)
deriving DecidableEq

/-- The document `keydown`/`keyup` handlers. -/
def handleEvent (s : PianoState) : InputEvent → PianoState
  | .keydownSpace => { s with sustainEnabled := true }
  | .keydown k =>
      let s1 := playNote s k
      { s1 with
          activeClasses :=
            if k ∈ s1.activeClasses then s1.activeClasses
            else s1.activeClasses ++ [k] }
  | .keyupSpace =>
      let s1 : PianoState := { s with sustainEnabled := false }
      flushAll s1 s1.activeOscillators
  | .keyup k =>
      if s.sustainEnabled then s
      else
        let s1 := stopNote s k
        { s1 with activeClasses := s1.activeClasses.filter (fun c => c != k) }

/-- The state at page load: empty map, sustain off. -/
def initState : PianoState :=
  { activeOscillators := []
    nextVoice := 0
    sustainEnabled := false
    activeClasses := []
    releaseLog := [] }

/-! ## Helper lemmas about the layout -/

lemma key_types_length : key_types.length = 12 := rfl

lemma note_idx_lt (note : Int) : note_idx note < 12 := by
  have h0 : 0 ≤ (note - 21) % 12 := Int.emod_nonneg _ (by norm_num)
  have h1 : (note - 21) % 12 < 12 := Int.emod_lt_of_pos _ (by norm_num)
  unfold note_idx
  omega

lemma key_types_getD_cases :
    ∀ m : Nat, m < 12 →
      key_types.getD m ("white", true) = ("white", true)
        ∨ key_types.getD m ("white", true) = ("black", false) := by
  decide

lemma key_type_cases (note : Int) :
    key_type_of note = ("white", true) ∨ key_type_of note = ("black", false) :=
  key_types_getD_cases (note_idx note) (note_idx_lt note)

lemma key_type_of_idx_zero (note : Int) (h : note_idx note = 0) :
    key_type_of note = ("white", true) := by
  unfold key_type_of
  rw [h]
  rfl

lemma length_go (start : Int) :
    ∀ (n i wc : Nat), (get_key_info_go start i wc n).length = n := by
  intro n
  induction n with
  | zero => intro i wc; rfl
  | succ n ih =>
      intro i wc
      simp [get_key_info_go, ih]

lemma length_get_key_info (start num : Int) :
    (get_key_info start num).length = num.toNat := by
  unfold get_key_info
  exact length_go start num.toNat 0 0

lemma whitesFrom_succ (start : Int) (i0 j : Nat) :
    whitesFrom start i0 (j + 1)
      = (if is_white_note (start + (i0 : Int)) then 1 else 0)
          + whitesFrom start (i0 + 1) j := rfl

lemma getD_go (start : Int) :
    ∀ (n i wc j : Nat), j < n →
      (get_key_info_go start i wc n).getD j default
        = mkKey start (wc + whitesFrom start i j) (i + j) := by
  intro n
  induction n with
  | zero => intro i wc j h; omega
  | succ n ih =>
      intro i wc j h
      cases j with
      | zero =>
          simp [get_key_info_go, whitesFrom]
      | succ j =>
          have hj : j < n := by omega
          have := ih (i + 1) (wc + (if is_white_note (start + (i : Int)) then 1 else 0)) j hj
          simp only [get_key_info_go, List.getD_cons_succ]
          rw [this, whitesFrom_succ]
          have harg1 :
              wc + (if is_white_note (start + (i : Int)) then 1 else 0)
                + whitesFrom start (i + 1) j
              = wc + ((if is_white_note (start + (i : Int)) then 1 else 0)
                  + whitesFrom start (i + 1) j) := by omega
          have harg2 : i + 1 + j = i + (j + 1) := by omega
          rw [harg1, harg2]

lemma mem_go (start : Int) :
    ∀ (n i wc : Nat) (k : Key), k ∈ get_key_info_go start i wc n →
      ∃ wc0 i0, k = mkKey start wc0 i0 := by
  intro n
  induction n with
  | zero => intro i wc k h; simp [get_key_info_go] at h
  | succ n ih =>
      intro i wc k h
      simp only [get_key_info_go, List.mem_cons] at h
      cases h with
      | inl h => exact ⟨wc, i, h⟩
      | inr h => exact ih _ _ k h

lemma mem_get_key_info (start num : Int) (k : Key)
    (h : k ∈ get_key_info start num) : ∃ wc0 i0, k = mkKey start wc0 i0 :=
  mem_go start num.toNat 0 0 k h

lemma mkKey_midi_note (start : Int) (wc i : Nat) :
    (mkKey start wc i).midi_note = start + (i : Int) := by
  unfold mkKey
  split <;> rfl

lemma mkKey_keyboard_key (start : Int) (wc i : Nat) :
    (mkKey start wc i).keyboard_key = keyboard_key_for i := by
  unfold mkKey
  split <;> rfl

lemma mkKey_type (start : Int) (wc i : Nat) :
    (mkKey start wc i).type = (key_type_of (start + (i : Int))).1 := by
  unfold mkKey
  split <;> rfl

lemma mkKey_type_white_iff (start : Int) (wc i : Nat) :
    (mkKey start wc i).type = "white" ↔ is_white_note (start + (i : Int)) = true := by
  rw [mkKey_type]
  rcases key_type_cases (start + (i : Int)) with h | h <;>
    simp [is_white_note, h]

lemma mkKey_x_white (start : Int) (wc i : Nat)
    (h : is_white_note (start + (i : Int)) = true) :
    (mkKey start wc i).x = (wc : ℚ) * KEY_WIDTH_PX := by
  have h2 : (key_type_of (start + (i : Int))).2 = true := h
  simp [mkKey, h2]

lemma mkKey_x_black (start : Int) (wc i : Nat)
    (h : is_white_note (start + (i : Int)) = false) :
    (mkKey start wc i).x
      = ((wc : ℚ) - 1) * KEY_WIDTH_PX + KEY_WIDTH_PX * offset_factor
          - (KEY_WIDTH_PX * blackKeyWidthFactor) / 2 := by
  have h2 : (key_type_of (start + (i : Int))).2 = false := h
  simp [mkKey, h2]

lemma mkKey_label_eq (start : Int) (wc i : Nat) :
    (mkKey start wc i).label
      = if note_idx (start + (i : Int)) = 0 then
          "C" ++ toString ((start + (i : Int)).fdiv 12 - 1)
        else "" := by
  rcases key_type_cases (start + (i : Int)) with h | h
  · have h2 : (key_type_of (start + (i : Int))).2 = true := by rw [h]
    simp [mkKey, h2]
  · have hne : note_idx (start + (i : Int)) ≠ 0 := by
      intro h0
      rw [key_type_of_idx_zero _ h0] at h
      exact absurd h (by decide)
    have h2 : (key_type_of (start + (i : Int))).2 = false := by rw [h]
    simp [mkKey, h2, hne]

lemma c_append_ne_empty (s : String) : ("C" ++ s) ≠ "" := by
  intro h
  have hd : ("C" ++ s).data = ("" : String).data := by rw [h]
  rw [String.data_append] at hd
  simp at hd

lemma take_countP_go (start : Int) :
    ∀ (n i wc j : Nat), j ≤ n →
      ((get_key_info_go start i wc n).take j).countP (fun k => k.type == "white")
        = whitesFrom start i j := by
  intro n
  induction n with
  | zero =>
      intro i wc j h
      have hj : j = 0 := by omega
      subst hj
      rfl
  | succ n ih =>
      intro i wc j h
      cases j with
      | zero => rfl
      | succ j =>
          have hj : j ≤ n := by omega
          simp only [get_key_info_go, List.take_succ_cons, List.countP_cons]
          rw [ih (i + 1) (wc + (if is_white_note (start + (i : Int)) then 1 else 0)) j hj,
            whitesFrom_succ]
          by_cases hw : is_white_note (start + (i : Int)) = true
          · have ht : ((mkKey start wc i).type == "white") = true := by
              simp [(mkKey_type_white_iff start wc i).mpr hw]
            rw [ht]
            simp [hw]
            omega
          · have hw2 : is_white_note (start + (i : Int)) = false := by
              simpa using hw
            have ht : ((mkKey start wc i).type == "white") = false := by
              rcases hb : ((mkKey start wc i).type == "white") with _ | _
              · rfl
              · exfalso
                have := (mkKey_type_white_iff start wc i).mp (by simpa using hb)
                rw [this] at hw2
                cases hw2
            rw [ht]
            simp [hw2]

lemma keyboard_key_for_eq : ∀ i : Nat, keyboard_key_for i = KEY_LIST.get? i
  | 0 => rfl
  | 1 => rfl
  | 2 => rfl
  | 3 => rfl
  | 4 => rfl
  | 5 => rfl
  | 6 => rfl
  | 7 => rfl
  | 8 => rfl
  | 9 => rfl
  | 10 => rfl
  | 11 => rfl
  | 12 => rfl
  | 13 => rfl
  | 14 => rfl
  | 15 => rfl
  | 16 => rfl
  | 17 => rfl
  | 18 => rfl
  | 19 => rfl
  | 20 => rfl
  | 21 => rfl
  | 22 => rfl
  | 23 => rfl
  | 24 => rfl
  | (_ + 25) => rfl

/-! ## Helper lemmas about the voice map -/

lemma find?_of_lookup_none (m : List (Nat × Nat)) (k : Nat)
    (h : lookupVoice m k = none) :
    m.find? (fun p => p.1 == k) = none := by
  unfold lookupVoice at h
  cases hf : m.find? (fun p => p.1 == k) with
  | none => rfl
  | some p =>
      rw [hf] at h
      simp at h

lemma lookupVoice_append_self (m : List (Nat × Nat)) (k v : Nat) :
    (lookupVoice (m ++ [(k, v)]) k).isSome = true := by
  unfold lookupVoice
  rw [List.find?_append]
  cases hf : m.find? (fun p => p.1 == k) with
  | none => simp [List.find?]
  | some p => simp

lemma lookupVoice_filter_self (m : List (Nat × Nat)) (k : Nat) :
    lookupVoice (m.filter (fun p => p.1 != k)) k = none := by
  unfold lookupVoice
  rw [List.find?_eq_none.mpr]
  · rfl
  · intro x hx
    have hx2 := (List.mem_filter.mp hx).2
    simp only [bne_iff_ne, ne_eq] at hx2
    simp [hx2]

lemma countP_zero_of_lookup_none (m : List (Nat × Nat)) (k : Nat)
    (h : lookupVoice m k = none) :
    m.countP (fun p => p.1 == k) = 0 := by
  rw [List.countP_eq_zero]
  intro a ha
  have hf := find?_of_lookup_none m k h
  exact List.find?_eq_none.mp hf a ha

/-! ## Claim C1 -/

/-- C1: for every `startNote` and `keyCount`, `get_key_info` returns exactly
`keyCount` key dictionaries (empty for `keyCount < 1`, without failure), the
`i`-th has `midi_note = startNote + i` (hence strictly ascending), and every
white key's `x` equals its 0-based rank among the white keys of the sequence
times the unit width. -/
theorem C1_layout_correct : ∀ (startNote keyCount : Int),
    (get_key_info startNote keyCount).length = keyCount.toNat
    ∧ (keyCount < 1 → get_key_info startNote keyCount = [])
    ∧ (∀ i : Nat, i < (get_key_info startNote keyCount).length →
        ((get_key_info startNote keyCount).getD i default).midi_note
          = startNote + (i : Int))
    ∧ (∀ i j : Nat, i < j → j < (get_key_info startNote keyCount).length →
        ((get_key_info startNote keyCount).getD i default).midi_note
          < ((get_key_info startNote keyCount).getD j default).midi_note)
    ∧ (∀ i : Nat, i < (get_key_info startNote keyCount).length →
        ((get_key_info startNote keyCount).getD i default).type = "white" →
        ((get_key_info startNote keyCount).getD i default).x
          = ((((get_key_info startNote keyCount).take i).countP
                (fun k => k.type == "white") : Nat) : ℚ) * KEY_WIDTH_PX) := by
  intro start num
  have hlen : (get_key_info start num).length = num.toNat :=
    length_get_key_info start num
  have hmid : ∀ i : Nat, i < (get_key_info start num).length →
      ((get_key_info start num).getD i default).midi_note = start + (i : Int) := by
    intro i hi
    rw [hlen] at hi
    unfold get_key_info
    rw [getD_go start num.toNat 0 0 i hi, mkKey_midi_note]
    norm_num
  refine ⟨hlen, ?_, hmid, ?_, ?_⟩
  · intro hneg
    have h0 : num.toNat = 0 := by omega
    unfold get_key_info
    rw [h0]
    rfl
  · intro i j hij hj
    have hi : i < (get_key_info start num).length := by omega
    rw [hmid i hi, hmid j hj]
    omega
  · intro i hi hwhite
    rw [hlen] at hi
    have hle : i ≤ num.toNat := by omega
    unfold get_key_info at hwhite ⊢
    rw [getD_go start num.toNat 0 0 i hi] at hwhite ⊢
    simp only [Nat.zero_add] at hwhite ⊢
    have hw : is_white_note (start + (i : Int)) = true :=
      (mkKey_type_white_iff start (whitesFrom start 0 i) i).mp hwhite
    rw [take_countP_go start num.toNat 0 0 i hle,
      mkKey_x_white start (whitesFrom start 0 i) i hw]

/-- Witness for C1 at `startNote = 21`, `keyCount = 3`: three keys, middle
key is MIDI 22, the third key (second white key) sits at `x = 40`. -/
theorem C1_layout_correct_witness :
    (get_key_info 21 3).length = 3
    ∧ get_key_info 21 0 = []
    ∧ ((get_key_info 21 3).getD 1 default).midi_note = 22
    ∧ ((get_key_info 21 3).getD 0 default).midi_note
        < ((get_key_info 21 3).getD 2 default).midi_note
    ∧ ((get_key_info 21 3).getD 2 default).x = 40 := by
  have h := C1_layout_correct 21 3
  refine ⟨h.1, (C1_layout_correct 21 0).2.1 (by norm_num), ?_, ?_, ?_⟩
  · have := h.2.2.1 1 (by rw [h.1]; norm_num)
    simpa using this
  · exact h.2.2.2.1 0 2 (by norm_num) (by rw [h.1]; norm_num)
  · have := h.2.2.2.2 2 (by rw [h.1]; norm_num) (by decide)
    rw [this]
    have hc : ((get_key_info 21 3).take 2).countP (fun k => k.type == "white") = 1 := by
      decide
    rw [hc]
    norm_num [KEY_WIDTH_PX]

/-! ## Claim C2 -/

lemma note_idx_zero_iff (note : Int) :
    note_idx note = 0 ↔ (note - 21) % 12 = 0 := by
  have h0 : 0 ≤ (note - 21) % 12 := Int.emod_nonneg _ (by norm_num)
  unfold note_idx
  omega

lemma get_key_info_label_spec (start num : Int) (k : Key)
    (hk : k ∈ get_key_info start num) :
    (k.label ≠ "" ↔ (k.midi_note - 21) % 12 = 0)
    ∧ ((k.midi_note - 21) % 12 = 0 →
        k.type = "white" ∧ k.label = "C" ++ toString (k.midi_note.fdiv 12 - 1)) := by
  obtain ⟨wc0, i0, rfl⟩ := mem_get_key_info start num k hk
  rw [mkKey_midi_note, mkKey_label_eq]
  by_cases h0 : note_idx (start + (i0 : Int)) = 0
  · have he : (start + (i0 : Int) - 21) % 12 = 0 := (note_idx_zero_iff _).mp h0
    rw [if_pos h0]
    refine ⟨⟨fun _ => he, fun _ => c_append_ne_empty _⟩, fun _ => ⟨?_, rfl⟩⟩
    rw [mkKey_type, key_type_of_idx_zero _ h0]
  · have he : ¬ (start + (i0 : Int) - 21) % 12 = 0 :=
      fun h => h0 ((note_idx_zero_iff _).mpr h)
    rw [if_neg h0]
    exact ⟨⟨fun h => absurd rfl h, fun h => absurd h he⟩, fun h => absurd h he⟩

/-- C2: a produced key has a non-empty label iff its semitone class
`(midi_note - 21) % 12` is 0; class 0 always yields a white key, and the
label is then exactly `"C"` followed by `midi_note // 12 - 1`.  All other
classes yield an empty label. -/
theorem C2_c_labels : ∀ (startNote keyCount : Int),
    ∀ k ∈ get_key_info startNote keyCount,
      (k.label ≠ "" ↔ (k.midi_note - 21) % 12 = 0)
      ∧ ((k.midi_note - 21) % 12 = 0 →
          k.type = "white" ∧ k.label = "C" ++ toString (k.midi_note.fdiv 12 - 1)) :=
  fun startNote keyCount k hk => get_key_info_label_spec startNote keyCount k hk

/-- Witness for C2 at `startNote = 21`, `keyCount = 1`: the single key has
semitone class 0, so it is white with a non-empty label. -/
theorem C2_c_labels_witness :
    ((get_key_info 21 1).getD 0 default).type = "white"
    ∧ ((get_key_info 21 1).getD 0 default).label ≠ "" := by
  have hmem : (get_key_info 21 1).getD 0 default ∈ get_key_info 21 1 := by
    rw [show get_key_info 21 1 = [mkKey 21 0 0] from rfl]
    exact List.mem_cons_self _ _
  have h := C2_c_labels 21 1 ((get_key_info 21 1).getD 0 default) hmem
  exact ⟨(h.2 (by decide)).1, h.1.mpr (by decide)⟩

/-! ## Claim C3 -/

/-- C3: `get_frequency 69 = 440`, and for every integer `n`,
`get_frequency (n + 12) = 2 * get_frequency n` (octave doubling); the
function is total on ℤ, matching `440 * 2 ** ((n - 69)/12)` with no range
check or failure mode. -/
theorem C3_frequency_octave_doubling :
    get_frequency 69 = 440
    ∧ ∀ n : Int, get_frequency (n + 12) = 2 * get_frequency n := by
  constructor
  · unfold get_frequency
    have h : (((69 : Int) : ℝ) - 69) / 12 = 0 := by norm_num
    rw [h, Real.rpow_zero]
    norm_num
  · intro n
    unfold get_frequency
    have h : (((n + 12 : Int) : ℝ) - 69) / 12 = ((n : ℝ) - 69) / 12 + 1 := by
      push_cast
      ring
    rw [h, Real.rpow_add (by norm_num : (0 : ℝ) < 2), Real.rpow_one]
    ring

/-! ## Claim C8 -/

/-- C8: for every integer `startNote` (including those making
`note - 21` negative) and loop index `i`, the Python `%` (embedded as
`Int.emod`) keeps the semitone class in `[0, 11]`, so indexing the 12-entry
`key_types` table is always in bounds. -/
theorem C8_semitone_class_in_bounds : ∀ (startNote : Int) (i : Nat),
    0 ≤ (startNote + (i : Int) - 21) % 12
    ∧ (startNote + (i : Int) - 21) % 12 < 12
    ∧ note_idx (startNote + (i : Int)) < key_types.length
    ∧ (key_types.get? (note_idx (startNote + (i : Int)))).isSome = true := by
  intro s i
  have h0 : 0 ≤ (s + (i : Int) - 21) % 12 := Int.emod_nonneg _ (by norm_num)
  have h1 : (s + (i : Int) - 21) % 12 < 12 := Int.emod_lt_of_pos _ (by norm_num)
  have h2 : note_idx (s + (i : Int)) < key_types.length := by
    rw [key_types_length]
    unfold note_idx
    omega
  refine ⟨h0, h1, h2, ?_⟩
  cases hg : key_types.get? (note_idx (s + (i : Int))) with
  | none =>
      exfalso
      have := List.get?_eq_none.mp hg
      omega
  | some p => rfl

/-! ## Claim C7 -/

/-- C7: the descriptor at position `i` of any layout carries the `i`-th
identifier of the fixed 25-entry table `a,w,s,e,d,f,t,g,y,h,u,j,k,o,l,p,
;,',z,x,c,v,b,n,m` (the `KEY_MAP` scan resolves position, not MIDI note),
and positions `i ≥ 25` get no binding. -/
theorem C7_trigger_key_binding :
    KEY_LIST.length = 25
    ∧ KEY_MAP.map Prod.fst = KEY_LIST
    ∧ (∀ (startNote keyCount : Int) (i : Nat),
        i < (get_key_info startNote keyCount).length →
        ((get_key_info startNote keyCount).getD i default).keyboard_key
          = KEY_LIST.get? i)
    ∧ (∀ (startNote keyCount : Int) (i : Nat),
        i < (get_key_info startNote keyCount).length → 25 ≤ i →
        ((get_key_info startNote keyCount).getD i default).keyboard_key
          = none) := by
  have hpos : ∀ (startNote keyCount : Int) (i : Nat),
      i < (get_key_info startNote keyCount).length →
      ((get_key_info startNote keyCount).getD i default).keyboard_key
        = KEY_LIST.get? i := by
    intro start num i hi
    rw [length_get_key_info] at hi
    unfold get_key_info
    rw [getD_go start num.toNat 0 0 i hi, mkKey_keyboard_key,
      keyboard_key_for_eq, Nat.zero_add]
  refine ⟨rfl, rfl, hpos, ?_⟩
  intro start num i hi h25
  rw [hpos start num i hi, List.get?_eq_none.mpr]
  show KEY_LIST.length ≤ i
  rw [show KEY_LIST.length = 25 from rfl]
  exact h25

/-- Witness for C7 at `startNote = 60`, `keyCount = 30`: position 0 is bound
to the character of offset 0 and position 25 is unbound. -/
theorem C7_trigger_key_binding_witness :
    ((get_key_info 60 30).getD 0 default).keyboard_key = some 'a'
    ∧ ((get_key_info 60 30).getD 25 default).keyboard_key = none := by
  have h := C7_trigger_key_binding
  have hlen : (get_key_info 60 30).length = 30 := length_get_key_info 60 30
  constructor
  · rw [h.2.2.1 60 30 0 (by omega)]
    rfl
  · exact h.2.2.2 60 30 25 (by omega) (by omega)

/-! ## Claim C9 -/

lemma head?_get_key_info (start num : Int) (h : 1 ≤ num) :
    (get_key_info start num).head? = some (mkKey start 0 0) := by
  unfold get_key_info
  have h1 : 1 ≤ num.toNat := by omega
  cases hn : num.toNat with
  | zero => omega
  | succ n => simp [get_key_info_go]

/-- C9: when the start note's semitone class selects a black entry (classes
1, 3, 6, 8, 10) and at least one key is generated, the first descriptor is a
black key whose `x` is computed with `white_key_count - 1 = -1`, i.e.
exactly `-unitWidth + unitWidth*0.6 - (unitWidth*0.6)/2 = -0.7*unitWidth
= -28`, beyond the surface's left edge. -/
theorem C9_first_black_key_offscreen : ∀ (startNote keyCount : Int),
    ((startNote - 21) % 12 = 1 ∨ (startNote - 21) % 12 = 3
      ∨ (startNote - 21) % 12 = 6 ∨ (startNote - 21) % 12 = 8
      ∨ (startNote - 21) % 12 = 10) →
    1 ≤ keyCount →
    ∃ k : Key, (get_key_info startNote keyCount).head? = some k
      ∧ k.type = "black"
      ∧ k.x = -KEY_WIDTH_PX + KEY_WIDTH_PX * offset_factor
          - (KEY_WIDTH_PX * blackKeyWidthFactor) / 2
      ∧ k.x = -(7 / 10) * KEY_WIDTH_PX
      ∧ k.x = -28 := by
  intro start num hclass hnum
  have hidx : note_idx (start + ((0 : Nat) : Int)) = ((start - 21) % 12).toNat := by
    unfold note_idx
    norm_num
  have hb : (key_type_of (start + ((0 : Nat) : Int))).2 = false := by
    rcases hclass with h | h | h | h | h <;>
      · unfold key_type_of
        rw [hidx, h]
        rfl
  have hblack : key_type_of (start + ((0 : Nat) : Int)) = ("black", false) := by
    rcases key_type_cases (start + ((0 : Nat) : Int)) with hw | hk
    · rw [hw] at hb
      cases hb
    · exact hk
  have hx : (mkKey start 0 0).x
      = (((0 : Nat) : ℚ) - 1) * KEY_WIDTH_PX + KEY_WIDTH_PX * offset_factor
          - (KEY_WIDTH_PX * blackKeyWidthFactor) / 2 :=
    mkKey_x_black start 0 0 hb
  refine ⟨mkKey start 0 0, head?_get_key_info start num hnum, ?_, ?_, ?_, ?_⟩
  · rw [mkKey_type, hblack]
  · rw [hx]
    norm_num
  · rw [hx]
    norm_num [KEY_WIDTH_PX, offset_factor, blackKeyWidthFactor]
  · rw [hx]
    norm_num [KEY_WIDTH_PX, offset_factor, blackKeyWidthFactor]

/-- Witness for C9 at `startNote = 60` (class 3), `keyCount = 1`: the single
generated key, middle C, is black and sits at `x = -28`. -/
theorem C9_first_black_key_offscreen_witness :
    (get_key_info 60 1).head?.map (fun k => (k.type, k.x)) = some ("black", -28) := by
  obtain ⟨k, hk, htype, hx1, hx2, hx3⟩ :=
    C9_first_black_key_offscreen 60 1 (by decide) (by norm_num)
  rw [hk]
  simp [htype, hx3]

/-! ## Claim C10 -/

/-- C10: a descriptor carries a non-empty label iff `midi_note ≡ 9 (mod
12)` (pitch class A, because the class-0 anchor is MIDI 21 while the table
starts at C); in particular the default start `layout(60, _)` makes middle C
the first key with kind black, since `(60 - 21) % 12 = 3` selects a black
entry. -/
theorem C10_label_class_is_A :
    (∀ (startNote keyCount : Int), ∀ k ∈ get_key_info startNote keyCount,
        (k.label ≠ "" ↔ k.midi_note % 12 = 9))
    ∧ (∀ keyCount : Int, 1 ≤ keyCount →
        (get_key_info 60 keyCount).head?.map (fun k => (k.midi_note, k.type))
          = some ((60 : Int), "black")) := by
  constructor
  · intro start num k hk
    have h := (get_key_info_label_spec start num k hk).1
    have hsub := Int.sub_emod k.midi_note 21 12
    have h0 : 0 ≤ k.midi_note % 12 := Int.emod_nonneg _ (by norm_num)
    have h1 : k.midi_note % 12 < 12 := Int.emod_lt_of_pos _ (by norm_num)
    rw [h]
    omega
  · intro num hnum
    rw [head?_get_key_info 60 num hnum]
    decide

/-- Witness for C10: MIDI 33 (class 0, pitch class A) gets a label, and the
default start 60 yields a black middle C as the first key. -/
theorem C10_label_class_is_A_witness :
    ((get_key_info 33 1).getD 0 default).label ≠ ""
    ∧ (get_key_info 60 2).head?.map (fun k => (k.midi_note, k.type))
        = some ((60 : Int), "black") := by
  have hmem : (get_key_info 33 1).getD 0 default ∈ get_key_info 33 1 := by
    rw [show get_key_info 33 1 = [mkKey 33 0 0] from rfl]
    exact List.mem_cons_self _ _
  exact ⟨(C10_label_class_is_A.1 33 1 _ hmem).mpr (by decide),
    C10_label_class_is_A.2 2 (by norm_num)⟩

/-! ## Claim C4 -/

/-- C4: `playNote` is a no-op when a voice already exists for the key, so a
double press creates exactly one voice (one map entry, one allocation), and
both engine operations preserve at-most-one-voice-per-key, which holds
initially. -/
theorem C4_press_idempotent : ∀ (s : PianoState) (k : Nat),
    ((lookupVoice s.activeOscillators k).isSome = true → playNote s k = s)
    ∧ playNote (playNote s k) k = playNote s k
    ∧ (lookupVoice s.activeOscillators k = none →
        ((playNote (playNote s k) k).activeOscillators.countP
            (fun p => p.1 == k)) = 1
        ∧ (playNote (playNote s k) k).nextVoice = s.nextVoice + 1)
    ∧ ((∀ k0 : Nat, s.activeOscillators.countP (fun p => p.1 == k0) ≤ 1) →
        ∀ k0 : Nat,
          (playNote s k).activeOscillators.countP (fun p => p.1 == k0) ≤ 1)
    ∧ ((∀ k0 : Nat, s.activeOscillators.countP (fun p => p.1 == k0) ≤ 1) →
        ∀ k0 : Nat,
          (stopNote s k).activeOscillators.countP (fun p => p.1 == k0) ≤ 1)
    ∧ (∀ k0 : Nat, initState.activeOscillators.countP (fun p => p.1 == k0) ≤ 1) := by
  intro s k
  have hnoop : (lookupVoice s.activeOscillators k).isSome = true →
      playNote s k = s := by
    intro h
    simp [playNote, h]
  have hdouble : playNote (playNote s k) k = playNote s k := by
    by_cases h : (lookupVoice s.activeOscillators k).isSome = true
    · rw [hnoop h, hnoop h]
    · have hnone : (lookupVoice s.activeOscillators k).isSome = false := by
        simpa using h
      have hplay : playNote s k
          = { s with
                activeOscillators := s.activeOscillators ++ [(k, s.nextVoice)]
                nextVoice := s.nextVoice + 1 } := by
        simp [playNote, hnone]
      rw [hplay]
      simp [playNote, lookupVoice_append_self]
  refine ⟨hnoop, hdouble, ?_, ?_, ?_, ?_⟩
  · intro h
    have hplay : playNote s k
        = { s with
              activeOscillators := s.activeOscillators ++ [(k, s.nextVoice)]
              nextVoice := s.nextVoice + 1 } := by
      simp [playNote, h]
    have hzero := countP_zero_of_lookup_none s.activeOscillators k h
    rw [hdouble, hplay]
    constructor
    · simp [List.countP_append, hzero, List.countP_cons]
    · rfl
  · intro hinv k0
    by_cases h : (lookupVoice s.activeOscillators k).isSome = true
    · rw [hnoop h]
      exact hinv k0
    · have hnone : lookupVoice s.activeOscillators k = none := by
        cases hc : lookupVoice s.activeOscillators k with
        | none => rfl
        | some v => rw [hc] at h; simp at h
      have hplay : playNote s k
          = { s with
                activeOscillators := s.activeOscillators ++ [(k, s.nextVoice)]
                nextVoice := s.nextVoice + 1 } := by
        simp [playNote, hnone]
      rw [hplay]
      simp only [List.countP_append]
      by_cases hk : k = k0
      · subst hk
        have hzero := countP_zero_of_lookup_none s.activeOscillators k hnone
        simp [hzero, List.countP_cons]
      · have hb : ((k == k0) : Bool) = false := by
          simp [hk]
        simp [List.countP_cons, hb]
        exact hinv k0
  · intro hinv k0
    cases hc : lookupVoice s.activeOscillators k with
    | none =>
        simp [stopNote, hc]
        exact hinv k0
    | some v =>
        by_cases hs : s.sustainEnabled = true
        · simp [stopNote, hc, hs]
          exact hinv k0
        · have hs2 : s.sustainEnabled = false := by simpa using hs
          simp only [stopNote, hc, hs2]
          simp only [Bool.false_eq_true, if_false]
          calc ((s.activeOscillators.filter (fun p => p.1 != k)).countP
                  (fun p => p.1 == k0))
              ≤ s.activeOscillators.countP (fun p => p.1 == k0) :=
                List.Sublist.countP_le _ (List.filter_sublist _)
            _ ≤ 1 := hinv k0
  · intro k0
    simp [initState]

/-- Witness for C4 at concrete states: a press on an already-voiced key is a
no-op, a double press from the initial state yields one map entry, and the
initial state satisfies the at-most-one invariant after a press. -/
theorem C4_press_idempotent_witness :
    playNote (⟨[(2, 5)], 6, false, [], []⟩ : PianoState) 2
        = (⟨[(2, 5)], 6, false, [], []⟩ : PianoState)
    ∧ ((playNote (playNote initState 2) 2).activeOscillators.countP
        (fun p => p.1 == 2)) = 1
    ∧ (∀ k0 : Nat,
        (playNote initState 2).activeOscillators.countP (fun p => p.1 == k0) ≤ 1) := by
  refine ⟨(C4_press_idempotent ⟨[(2, 5)], 6, false, [], []⟩ 2).1 (by decide),
    ((C4_press_idempotent initState 2).2.2.1 (by decide)).1,
    (C4_press_idempotent initState 2).2.2.2.1 ?_⟩
  intro k0
  simp [initState]

/-! ## Claim C5 -/

/-- C5 counterexample: in a state where sustain is enabled and key 0 holds
voice 7, `stopNote` (the code's release entry point, lines 266-277) does NOT
remove the descriptor from the mapping, contradicting the claim that a
release on an existing voice always removes it immediately. -/
theorem C5_sustain_keeps_voice_counterexample :
    lookupVoice ((⟨[(0, 7)], 8, true, [], []⟩ : PianoState).activeOscillators) 0
        = some 7
    ∧ lookupVoice ((stopNote (⟨[(0, 7)], 8, true, [], []⟩ : PianoState) 0).activeOscillators) 0
        = some 7 := by
  decide

/-- C5 (amended): `stopNote` is a no-op when no voice exists; when a voice
exists and sustain is inactive — the only situation in which the dispatcher
semantics of the spec emit an engine release — the descriptor is removed
from the mapping before `stopNote` returns (the audio tail only lives in
the release log), so press followed by release leaves the mapping without
the descriptor. -/
theorem C5_release_removes_immediately : ∀ (s : PianoState) (k : Nat),
    (lookupVoice s.activeOscillators k = none → stopNote s k = s)
    ∧ (s.sustainEnabled = false → ∀ v : Nat,
        lookupVoice s.activeOscillators k = some v →
        (stopNote s k).activeOscillators
            = s.activeOscillators.filter (fun p => p.1 != k)
        ∧ lookupVoice (stopNote s k).activeOscillators k = none)
    ∧ (s.sustainEnabled = false →
        lookupVoice (stopNote (playNote s k) k).activeOscillators k = none) := by
  intro s k
  have hstop : s.sustainEnabled = false → ∀ v : Nat,
      lookupVoice s.activeOscillators k = some v →
      (stopNote s k).activeOscillators
          = s.activeOscillators.filter (fun p => p.1 != k)
      ∧ lookupVoice (stopNote s k).activeOscillators k = none := by
    intro hsus v hv
    have h1 : (stopNote s k).activeOscillators
        = s.activeOscillators.filter (fun p => p.1 != k) := by
      simp [stopNote, hv, hsus]
    exact ⟨h1, by rw [h1]; exact lookupVoice_filter_self _ _⟩
  refine ⟨?_, hstop, ?_⟩
  · intro h
    simp [stopNote, h]
  · intro hsus
    cases hc : lookupVoice s.activeOscillators k with
    | some v =>
        have hplay : playNote s k = s := by
          simp [playNote, hc]
        rw [hplay]
        exact (hstop hsus v hc).2
    | none =>
        have hplay : playNote s k
            = { s with
                  activeOscillators := s.activeOscillators ++ [(k, s.nextVoice)]
                  nextVoice := s.nextVoice + 1 } := by
          simp [playNote, hc]
        rw [hplay]
        cases hc2 : lookupVoice (s.activeOscillators ++ [(k, s.nextVoice)]) k with
        | none =>
            have := lookupVoice_append_self s.activeOscillators k s.nextVoice
            rw [hc2] at this
            cases this
        | some v =>
            have h1 : (stopNote
                { s with
                    activeOscillators := s.activeOscillators ++ [(k, s.nextVoice)]
                    nextVoice := s.nextVoice + 1 } k).activeOscillators
                = (s.activeOscillators ++ [(k, s.nextVoice)]).filter
                    (fun p => p.1 != k) := by
              simp [stopNote, hc2, hsus]
            rw [h1]
            exact lookupVoice_filter_self _ _
  
/-- Witness for the amended C5: press then release on the initial state
leaves the mapping without the key, and a release on an absent key is a
no-op. -/
theorem C5_release_removes_immediately_witness :
    lookupVoice ((stopNote (playNote initState 4) 4).activeOscillators) 4 = none
    ∧ stopNote initState 9 = initState := by
  exact ⟨(C5_release_removes_immediately initState 4).2.2 rfl,
    (C5_release_removes_immediately initState 9).1 (by decide)⟩

/-! ## Claim C6 -/

/-- C6: from a quiescent state, in the trace keydown(space), keydown(d),
keyup(d), keyup(space): the keyup of d while sustain is active schedules no
release (the voice remains mapped and d keeps its active mark), and the
keyup of space sets sustain to false and then emits exactly one release for
every still-active descriptor (here d), clearing its active mark. -/
theorem C6_sustain_flush (s : PianoState) (d : Nat)
    (hsus : s.sustainEnabled = false)
    (hosc : s.activeOscillators = [])
    (hcls : s.activeClasses = []) :
    let s3 := handleEvent (handleEvent (handleEvent s InputEvent.keydownSpace)
        (InputEvent.keydown d)) (InputEvent.keyup d)
    let s4 := handleEvent s3 InputEvent.keyupSpace
    s3.releaseLog = s.releaseLog
    ∧ lookupVoice s3.activeOscillators d = some s.nextVoice
    ∧ d ∈ s3.activeClasses
    ∧ s4.sustainEnabled = false
    ∧ s4.releaseLog = s.releaseLog ++ [(d, s.nextVoice)]
    ∧ s4.activeOscillators = []
    ∧ s4.activeClasses = [] := by
  obtain ⟨osc, nv, sus, cls, log⟩ := s
  simp only at hsus hosc hcls
  subst hsus
  subst hosc
  subst hcls
  simp [handleEvent, playNote, stopNote, flushAll, lookupVoice, List.find?]

/-- Witness for C6 from the initial state with `d = 3`. -/
theorem C6_sustain_flush_witness :
    (handleEvent (handleEvent (handleEvent initState InputEvent.keydownSpace)
        (InputEvent.keydown 3)) (InputEvent.keyup 3)).releaseLog = []
    ∧ (handleEvent (handleEvent (handleEvent (handleEvent initState
          InputEvent.keydownSpace) (InputEvent.keydown 3)) (InputEvent.keyup 3))
        InputEvent.keyupSpace).releaseLog = [(3, 0)]
    ∧ (handleEvent (handleEvent (handleEvent (handleEvent initState
          InputEvent.keydownSpace) (InputEvent.keydown 3)) (InputEvent.keyup 3))
        InputEvent.keyupSpace).activeOscillators = [] := by
  have h := C6_sustain_flush initState 3 rfl rfl rfl
  exact ⟨h.1, h.2.2.2.2.1, h.2.2.2.2.2.1⟩
